import Mathlib

/-!
Verification development for the portfolio page script (src/js/app.js).

The file shallowly embeds the parts of the script the correctness claims
touch: theme toggling, contact-form validation, the carousel auto-scroll
loop, the carousel width measurement with its fallback, the particle
per-frame update, and the visibility-driven suspension of the particle
animation loop.  JavaScript numbers are modelled as rationals where the
script does only field arithmetic and comparisons, and as reals where the
script calls Math.sin and Math.cos; NaN and the infinities are modelled
explicitly (type JSNum) where the script tests isFinite.
-/

namespace Portfolio

/-! ## Theme management (src/js/app.js lines 54-58)

The script keeps the current theme in state.currentTheme and mirrors every
change into localStorage under the key "theme".  The store is modelled as
the Option-valued entry for that one key. -/

inductive Theme where
  | dark : Theme
  | light : Theme
deriving DecidableEq, Repr

structure ThemeState where
  current : Theme
  storedTheme : Option Theme
deriving DecidableEq, Repr

/-- Embedding of toggleTheme: flip dark/light, then write the new value to
the persistent store (localStorage.setItem), in that order. -/
def toggleTheme (s : ThemeState) : ThemeState :=
  let t := if s.current = Theme.dark then Theme.light else Theme.dark
  { current := t, storedTheme := some t }

/-! ## Contact-form validation (src/js/app.js lines 132-198)

validateField trims the raw field value, then branches on the field name.
The email test embeds the regular expression used by the script,
anchored one-or-more non-space-non-at characters, an at sign, the same
class again, a dot, the same class again.  Because the character class
excludes the at sign, a full match forces the at sign of the pattern to be
the first and only at sign of the string and reduces the test to: the
local part before the at sign is nonempty and clean, the rest is nonempty
and clean, and the rest has a dot at an interior position. -/

/-- The whitespace set of JavaScript: the ECMAScript WhiteSpace production
(tab, vertical tab, form feed, space, no-break space, byte order mark and
the Zs space separators) together with the LineTerminator production (line
feed, carriage return, line separator, paragraph separator).  This is the
set String.prototype.trim strips and the backslash-s regex class
matches. -/
def jsWhitespace (c : Char) : Bool :=
  c == ' ' || c == '\t' || c == '\n' || c == '\r'
    || c == '\u000b' || c == '\u000c'
    || c == '\u00a0' || c == '\ufeff'
    || c == '\u1680'
    || ('\u2000' ≤ c && c ≤ '\u200a')
    || c == '\u2028' || c == '\u2029'
    || c == '\u202f' || c == '\u205f' || c == '\u3000'

/-- Embedding of the JavaScript String.prototype.trim call: strip leading
and trailing JavaScript whitespace. -/
def jsTrim (s : String) : String :=
  String.mk (((s.data.dropWhile jsWhitespace).reverse.dropWhile
    jsWhitespace).reverse)

/-- A character admitted by the regex class excluding whitespace and the
at sign. -/
def emailAtom (c : Char) : Bool :=
  !(jsWhitespace c || c == '@')

/-- Embedding of emailRegex.test for the anchored pattern used by
validateField (see the section comment for the reduction argument). -/
def emailTest (s : String) : Bool :=
  let cs := s.data
  let a := cs.takeWhile (fun c => c != '@')
  let rest := cs.drop (a.length + 1)
  cs.contains '@' && !a.isEmpty && a.all emailAtom
    && !rest.isEmpty && rest.all emailAtom
    && ((rest.drop 1).dropLast.contains '.')

inductive FieldName where
  | name : FieldName
  | email : FieldName
  | message : FieldName
deriving DecidableEq, Repr

/-- Embedding of validateField: the pair is (isValid, errorMessage).  The
script trims the value first; an empty string is falsy, so each field
reports its required error on a trimmed-empty value before any length or
format check runs. -/
def validateField (field : FieldName) (raw : String) : Bool × String :=
  let value := jsTrim raw
  match field with
  | FieldName.name =>
    if value = "" then (false, "Name is required")
    else if value.length < 2 then (false, "Name must be at least 2 characters")
    else (true, "")
  | FieldName.email =>
    if value = "" then (false, "Email is required")
    else if !(emailTest value) then (false, "Please enter a valid email address")
    else (true, "")
  | FieldName.message =>
    if value = "" then (false, "Message is required")
    else if value.length < 10 then (false, "Message must be at least 10 characters")
    else (true, "")

structure ContactForm where
  name : String
  email : String
  message : String

structure SubmitOutcome where
  nameError : String
  emailError : String
  messageError : String
  formReset : Bool
deriving DecidableEq, Repr

/-- Embedding of handleFormSubmit: validate each named field (the form has
the fields name, email, message), record each field's displayed error text,
and reset the form exactly when every field validated. -/
def handleFormSubmit (d : ContactForm) : SubmitOutcome :=
  let vn := validateField FieldName.name d.name
  let ve := validateField FieldName.email d.email
  let vm := validateField FieldName.message d.message
  { nameError := vn.2
    emailError := ve.2
    messageError := vm.2
    formReset := vn.1 && ve.1 && vm.1 }

/-! ## Carousel loop (src/js/app.js lines 594-638)

The carousel keeps a pixel offset px into the doubled strip.  Each frame,
when running, it adds pxPerSecond * dt and wraps by a single subtraction
when the offset reaches the single-set width.  Numbers are modelled as
rationals; ratMod is the mathematical remainder the offset is compared
against. -/

/-- Embedding of Math.round on a finite number: floor of the value plus one
half. -/
def jsRound (q : ℚ) : ℤ := ⌊q + 1 / 2⌋

/-- Embedding of the speed computation Math.max(30, Math.round(width / 6)). -/
def pxPerSecond (S : ℚ) : ℚ := max 30 ((jsRound (S / 6) : ℤ) : ℚ)

/-- Embedding of one body of the step frame callback: when running, advance
the offset by speed * dt and subtract the single-set width once if the
result reaches it; when paused, leave the offset untouched. -/
def carouselStep (S speed : ℚ) (running : Bool) (px dt : ℚ) : ℚ :=
  if running then
    let p := px + speed * dt
    if S ≤ p then p - S else p
  else px

/-- A sequence of frames with the given per-frame elapsed times. -/
def carouselRun (S speed : ℚ) (running : Bool) (px : ℚ) (dts : List ℚ) : ℚ :=
  dts.foldl (carouselStep S speed running) px

/-- The remainder of x modulo S in the rationals. -/
def ratMod (x S : ℚ) : ℚ := x - S * ⌊x / S⌋

/-! ## Carousel width measurement (src/js/app.js lines 594-606)

The setup sums the bounding-box widths of the original items, adding the
track gap after every item but the last, and replaces a zero or non-finite
result by the constant 1000.  JavaScript numbers are modelled by JSNum: a
finite rational, NaN, or one of the infinities; addition propagates NaN
and resolves infinities the way IEEE addition does.  Bounding-box widths
are always finite and non-negative, while the gap read with parseFloat can
be NaN (for example when the computed style is the keyword normal). -/

inductive JSNum where
  | fin : ℚ → JSNum
  | nan : JSNum
  | posInf : JSNum
  | negInf : JSNum
deriving DecidableEq, Repr

/-- Addition of JavaScript numbers. -/
def JSNum.add : JSNum → JSNum → JSNum
  | JSNum.fin a, JSNum.fin b => JSNum.fin (a + b)
  | JSNum.nan, _ => JSNum.nan
  | _, JSNum.nan => JSNum.nan
  | JSNum.posInf, JSNum.negInf => JSNum.nan
  | JSNum.negInf, JSNum.posInf => JSNum.nan
  | JSNum.posInf, _ => JSNum.posInf
  | _, JSNum.posInf => JSNum.posInf
  | JSNum.negInf, _ => JSNum.negInf
  | _, JSNum.negInf => JSNum.negInf

/-- The isFinite test of JavaScript. -/
def JSNum.isFiniteNum : JSNum → Bool
  | JSNum.fin _ => true
  | _ => false

/-- Truthiness of a JavaScript number: zero and NaN are falsy, the
infinities and every other value are truthy. -/
def JSNum.falsy : JSNum → Bool
  | JSNum.fin a => a == 0
  | JSNum.nan => true
  | _ => false

/-- Embedding of the measurement loop over originalItems: add each item
width, and after every item whose index is below the last index add the
gap once. -/
def measureLoop (gap : JSNum) (lastIdx : ℕ) : ℕ → List ℚ → JSNum → JSNum
  | _, [], acc => acc
  | i, w :: ws, acc =>
    let acc2 := JSNum.add acc (JSNum.fin w)
    let acc3 := if i < lastIdx then JSNum.add acc2 gap else acc2
    measureLoop gap lastIdx (i + 1) ws acc3

/-- The measured originalTotalWidth before the defensive fallback. -/
def computeOriginalTotalWidth (gap : JSNum) (widths : List ℚ) : JSNum :=
  measureLoop gap (widths.length - 1) 0 widths (JSNum.fin 0)

/-- Embedding of the defensive fallback: a falsy or non-finite measured
width is replaced by exactly 1000, any other value passes unchanged. -/
def fallbackWidth (w : JSNum) : JSNum :=
  if w.falsy || !w.isFiniteNum then JSNum.fin 1000 else w

/-- A value the measurement loop can produce from finite non-negative
widths and a non-negative-or-NaN gap: NaN, or a finite non-negative
number. -/
def wellMeasured (x : JSNum) : Prop :=
  x = JSNum.nan ∨ ∃ q : ℚ, x = JSNum.fin q ∧ 0 ≤ q

/-! ## Particle animation loop scheduling (src/js/app.js lines 475-517)

The animate callback first checks document.hidden and returns without
rescheduling when the tab is hidden; otherwise it stores the id returned
by requestAnimationFrame (always truthy, modelled as some id) and runs the
frame.  The visibilitychange handler calls startAnimation only when the
document is visible and state.animationId is still falsy.  The model keeps
the hidden flag, whether a frame callback is pending with the scheduler,
the stored animation id, and a counter for fresh ids; events are a pending
frame callback firing, the tab hiding, and the tab becoming visible. -/

structure LoopState where
  hidden : Bool
  pending : Bool
  animId : Option ℕ
  nextId : ℕ
deriving DecidableEq, Repr

/-- Embedding of the animate function body: return at once when hidden,
otherwise schedule the next frame and store its id. -/
def animateBody (s : LoopState) : LoopState :=
  if s.hidden then s
  else { s with pending := true, animId := some s.nextId, nextId := s.nextId + 1 }

inductive VisEvent where
  | frameFire : VisEvent
  | tabHide : VisEvent
  | tabShow : VisEvent
deriving DecidableEq, Repr

/-- One event of the scheduler and visibility model: a pending frame
callback runs animate, hiding sets the hidden flag, and showing clears it
and runs the visibilitychange handler, which starts the loop only when the
stored animation id is still unset. -/
def visStep (s : LoopState) : VisEvent → LoopState
  | VisEvent.frameFire =>
      if s.pending then animateBody { s with pending := false } else s
  | VisEvent.tabHide => { s with hidden := true }
  | VisEvent.tabShow =>
      let s2 := { s with hidden := false }
      if s2.animId = none then animateBody s2 else s2

def visRun (s : LoopState) (evs : List VisEvent) : LoopState :=
  evs.foldl visStep s

/-- The state right after startAnimation runs on a visible page at setup. -/
def startState : LoopState :=
  animateBody { hidden := false, pending := false, animId := none, nextId := 1 }

/-! ## Particle field (src/js/app.js lines 334-473)

animateParticles walks the flat position buffer in steps of three, so the
flat index of particle k is 3 * k.  For each particle it adds the stored
velocity, adds drift terms Math.sin(time + i * 0.01) * 0.01 on x and
Math.cos(time + i * 0.015) * 0.008 on z where i is the flat index, adds
the mouse-parallax term to x and subtracts it from y, then wraps: when y
exceeds 15 it resets y to -15 and re-randomizes x and z (the random draws
are oracle inputs rx, rz of the frame environment), and finally reflects x
across the 20 bound and z across the 10 bound by two sequential ifs.  The
y coordinate has no lower-bound check.  Coordinates are reals since the
script calls Math.sin and Math.cos. -/

structure Vec3 where
  x : ℝ
  y : ℝ
  z : ℝ

structure Env where
  time : ℝ
  mouseX : ℝ
  mouseY : ℝ
  winW : ℝ
  winH : ℝ
  rx : ℝ
  rz : ℝ

/-- Embedding of the pair of sequential reflection ifs the script applies
to x (bound 20) and z (bound 10): a value above the bound becomes the
negated bound, then a value below the negated bound becomes the bound. -/
noncomputable def wrapAcross (b a : ℝ) : ℝ :=
  let a1 := if a > b then -b else a
  if a1 < -b then b else a1

/-- Embedding of one particle update of animateParticles for the particle
whose flat buffer index is i: velocity add, index-phased drift, mouse
parallax, the y wraparound with re-randomized x and z, then the x and z
reflections. -/
noncomputable def animateStep (i : ℕ) (v : Vec3) (e : Env) (p : Vec3) : Vec3 :=
  let x1 := p.x + v.x + Real.sin (e.time + (i : ℝ) * 0.01) * 0.01
      + (e.mouseX - e.winW / 2) * 0.0003
  let z1 := p.z + v.z + Real.cos (e.time + (i : ℝ) * 0.015) * 0.008
  let y1 := p.y + v.y - (e.mouseY - e.winH / 2) * 0.0003
  if y1 > 15 then
    { x := wrapAcross 20 e.rx, y := -15, z := wrapAcross 10 e.rz }
  else
    { x := wrapAcross 20 x1, y := y1, z := wrapAcross 10 z1 }

/-- A sequence of frames acting on one particle, one environment (time,
mouse, window, random draws) per frame. -/
noncomputable def animateRun (i : ℕ) (v : Vec3) (es : List Env) (p : Vec3) : Vec3 :=
  es.foldl (fun q e => animateStep i v e q) p

/-- The bounding volume the spec claims positions stay inside. -/
def inBoundsP (p : Vec3) : Prop :=
  -20 ≤ p.x ∧ p.x ≤ 20 ∧ -15 ≤ p.y ∧ p.y ≤ 15 ∧ -10 ≤ p.z ∧ p.z ≤ 10

/-- The part of the bounding volume the update enforces unconditionally:
everything except the y lower bound, which the code never checks. -/
def inBoundsAboveFloor (p : Vec3) : Prop :=
  -20 ≤ p.x ∧ p.x ≤ 20 ∧ p.y ≤ 15 ∧ -10 ≤ p.z ∧ p.z ≤ 10

/-- The zero vector, used as a concrete particle and velocity. -/
noncomputable def vZero : Vec3 := { x := 0, y := 0, z := 0 }

/-- A concrete creation-range velocity with upward y component. -/
noncomputable def vUp : Vec3 := { x := 0, y := 1, z := 0 }

/-- A concrete frame environment with the mouse at the window center. -/
noncomputable def eZero : Env :=
  { time := 0, mouseX := 0, mouseY := 0, winW := 0, winH := 0, rx := 0, rz := 0 }

/-- Per-frame environment for the whole field: the reseed oracles give the
random draws used when a particle wraps in y. -/
structure FieldEnv where
  time : ℝ
  mouseX : ℝ
  mouseY : ℝ
  winW : ℝ
  winH : ℝ
  reseedX : ℕ → ℝ
  reseedZ : ℕ → ℝ

/-- The particle buffers the script allocates in createParticles, plus the
shader time uniform animateParticles also writes. -/
structure ParticleSystem where
  positions : List Vec3
  velocities : List Vec3
  sizes : List ℝ
  colors : List Vec3
  uniformTime : ℝ

/-- Embedding of one whole animateParticles call: update the time uniform
and map the per-particle step over the position buffer (particle k has
flat index 3 * k); the velocity, size and color buffers are read, never
written. -/
noncomputable def animateParticles (e : FieldEnv) (s : ParticleSystem) :
    ParticleSystem :=
  { s with
    uniformTime := e.time
    positions := (List.zip s.positions s.velocities).enum.map fun kpv =>
      animateStep (3 * kpv.1) kpv.2.2
        { time := e.time, mouseX := e.mouseX, mouseY := e.mouseY,
          winW := e.winW, winH := e.winH,
          rx := e.reseedX kpv.1, rz := e.reseedZ kpv.1 } kpv.2.1 }

/-- A sequence of animateParticles frames. -/
noncomputable def animateFrames (es : List FieldEnv) (s : ParticleSystem) :
    ParticleSystem :=
  es.foldl (fun t e => animateParticles e t) s

/-! ## Theorems -/

lemma wrapAcross_mem (b : ℝ) (hb : 0 ≤ b) (a : ℝ) :
    -b ≤ wrapAcross b a ∧ wrapAcross b a ≤ b := by
  simp only [wrapAcross]
  split_ifs <;> constructor <;> linarith

lemma wrapAcross_eq_self {b a : ℝ} (h1 : a ≤ b) (h2 : -b ≤ a) :
    wrapAcross b a = a := by
  simp only [wrapAcross]
  rw [if_neg (not_lt.mpr h1), if_neg (not_lt.mpr h2)]

lemma animateStep_inBounds (i : ℕ) (v : Vec3) (e : Env) (p : Vec3)
    (hy : -15 ≤ p.y) (hpar : (e.mouseY - e.winH / 2) * 0.0003 ≤ v.y) :
    inBoundsP (animateStep i v e p) := by
  have hx := wrapAcross_mem 20 (by norm_num)
  have hz := wrapAcross_mem 10 (by norm_num)
  simp only [animateStep, inBoundsP]
  by_cases h : p.y + v.y - (e.mouseY - e.winH / 2) * 0.0003 > 15
  · rw [if_pos h]
    exact ⟨(hx _).1, (hx _).2, by norm_num, by norm_num, (hz _).1, (hz _).2⟩
  · rw [if_neg h]
    push_neg at h
    exact ⟨(hx _).1, (hx _).2, by linarith, by linarith, (hz _).1, (hz _).2⟩

lemma animateStep_aboveFloor (i : ℕ) (v : Vec3) (e : Env) (p : Vec3) :
    inBoundsAboveFloor (animateStep i v e p) := by
  have hx := wrapAcross_mem 20 (by norm_num)
  have hz := wrapAcross_mem 10 (by norm_num)
  simp only [animateStep, inBoundsAboveFloor]
  by_cases h : p.y + v.y - (e.mouseY - e.winH / 2) * 0.0003 > 15
  · rw [if_pos h]
    exact ⟨(hx _).1, (hx _).2, by norm_num, (hz _).1, (hz _).2⟩
  · rw [if_neg h]
    push_neg at h
    exact ⟨(hx _).1, (hx _).2, h, (hz _).1, (hz _).2⟩

lemma animateRun_aboveFloor (i : ℕ) (v : Vec3) (es : List Env) (p : Vec3)
    (hp : inBoundsAboveFloor p) : inBoundsAboveFloor (animateRun i v es p) := by
  induction es generalizing p with
  | nil => simpa [animateRun] using hp
  | cons e rest ih =>
      have h2 := ih (animateStep i v e p) (animateStep_aboveFloor i v e p)
      simpa [animateRun, List.foldl_cons] using h2

lemma visRun_dead :
    ∀ (evs : List VisEvent) (s : LoopState), s.pending = false → s.animId.isSome →
      (visRun s evs).pending = false ∧ (visRun s evs).animId.isSome := by
  intro evs
  induction evs with
  | nil =>
      intro s h1 h2
      exact ⟨h1, h2⟩
  | cons e rest ih =>
      intro s h1 h2
      have hstep : (visStep s e).pending = false ∧ (visStep s e).animId.isSome := by
        cases e with
        | frameFire =>
            rw [show visStep s VisEvent.frameFire = s by simp [visStep, h1]]
            exact ⟨h1, h2⟩
        | tabHide => exact ⟨h1, h2⟩
        | tabShow =>
            have hne : s.animId ≠ none := Option.isSome_iff_ne_none.mp h2
            rw [show visStep s VisEvent.tabShow = { s with hidden := false } by
              simp [visStep, hne]]
            exact ⟨h1, h2⟩
      have h3 := ih (visStep s e) hstep.1 hstep.2
      simpa [visRun, List.foldl_cons] using h3

/-- C4: the particle loop never reschedules itself from a frame that runs
while the page is hidden (first conjunct), but the resume half of the
claim fails: startAnimation leaves the stale animation id in place when
the loop suspends, so after a frame fires while hidden, returning to
visibility never restarts the loop, and it stays unscheduled under every
later event sequence (the claim promises exactly one resume). -/
theorem c4_hidden_frame_kills_loop :
    (∀ s : LoopState,
        (visStep { s with hidden := true } VisEvent.frameFire).pending = false)
    ∧ (visRun startState
        [VisEvent.tabHide, VisEvent.frameFire, VisEvent.tabShow]).pending = false
    ∧ ∀ evs : List VisEvent,
        (visRun (visRun startState
            [VisEvent.tabHide, VisEvent.frameFire, VisEvent.tabShow]) evs).pending
          = false := by
  refine ⟨?_, by rfl, ?_⟩
  · intro s
    cases hp : s.pending with
    | false => simp [visStep, hp]
    | true => simp [visStep, hp, animateBody]
  · intro evs
    exact (visRun_dead evs _ (by rfl) (by rfl)).1

lemma wellMeasured_add_fin {x : JSNum} (hx : wellMeasured x) {w : ℚ} (hw : 0 ≤ w) :
    wellMeasured (JSNum.add x (JSNum.fin w)) := by
  rcases hx with h | ⟨q, rfl, hq⟩
  · subst h
    exact Or.inl rfl
  · exact Or.inr ⟨q + w, rfl, by linarith⟩

lemma wellMeasured_add_gap {x : JSNum} (hx : wellMeasured x) {gap : JSNum}
    (hgap : gap = JSNum.nan ∨ ∃ g : ℚ, gap = JSNum.fin g ∧ 0 ≤ g) :
    wellMeasured (JSNum.add x gap) := by
  rcases hgap with h | ⟨g, rfl, hg⟩
  · subst h
    rcases hx with h | ⟨q, rfl, _⟩
    · subst h
      exact Or.inl rfl
    · exact Or.inl rfl
  · exact wellMeasured_add_fin hx hg

lemma measureLoop_wellMeasured (gap : JSNum)
    (hgap : gap = JSNum.nan ∨ ∃ g : ℚ, gap = JSNum.fin g ∧ 0 ≤ g)
    (lastIdx : ℕ) :
    ∀ (ws : List ℚ) (i : ℕ) (acc : JSNum), (∀ w ∈ ws, 0 ≤ w) →
      wellMeasured acc → wellMeasured (measureLoop gap lastIdx i ws acc) := by
  intro ws
  induction ws with
  | nil =>
      intro i acc _ hacc
      simpa [measureLoop] using hacc
  | cons w rest ih =>
      intro i acc hws hacc
      have hw : (0:ℚ) ≤ w := hws w (List.mem_cons_self w rest)
      have h2 : wellMeasured (JSNum.add acc (JSNum.fin w)) :=
        wellMeasured_add_fin hacc hw
      have h3 : wellMeasured
          (if i < lastIdx then JSNum.add (JSNum.add acc (JSNum.fin w)) gap
           else JSNum.add acc (JSNum.fin w)) := by
        by_cases hi : i < lastIdx
        · simpa [hi] using wellMeasured_add_gap h2 hgap
        · simpa [hi] using h2
      simpa [measureLoop] using
        ih (i + 1) _ (fun x hx => hws x (List.mem_cons_of_mem _ hx)) h3

/-- C5: the defensive fallback substitutes exactly 1000 for a zero or
non-finite measured width and passes any other value unchanged, and on the
widths the layout can actually report (finite non-negative item widths, a
gap that parseFloat read as NaN or as a finite non-negative number) the
resulting single-set width is always a positive finite number. -/
theorem c5_width_fallback_positive (gap : JSNum) (widths : List ℚ)
    (hgap : gap = JSNum.nan ∨ ∃ g : ℚ, gap = JSNum.fin g ∧ 0 ≤ g)
    (hw : ∀ w ∈ widths, 0 ≤ w) :
    (∀ v : JSNum,
        ((v = JSNum.fin 0 ∨ v.isFiniteNum = false) → fallbackWidth v = JSNum.fin 1000)
        ∧ (v ≠ JSNum.fin 0 → v.isFiniteNum = true → fallbackWidth v = v))
    ∧ ∃ q : ℚ, fallbackWidth (computeOriginalTotalWidth gap widths) = JSNum.fin q
        ∧ 0 < q := by
  constructor
  · intro v
    constructor
    · rintro (rfl | hnf)
      · rfl
      · cases v with
        | fin a => simp [JSNum.isFiniteNum] at hnf
        | nan => rfl
        | posInf => rfl
        | negInf => rfl
    · intro hne hf
      cases v with
      | fin a =>
          have ha : ¬ a = 0 := fun h => hne (by rw [h])
          simp [fallbackWidth, JSNum.falsy, JSNum.isFiniteNum, ha]
      | nan => simp [JSNum.isFiniteNum] at hf
      | posInf => simp [JSNum.isFiniteNum] at hf
      | negInf => simp [JSNum.isFiniteNum] at hf
  · have hm : wellMeasured (computeOriginalTotalWidth gap widths) :=
      measureLoop_wellMeasured gap hgap (widths.length - 1) widths 0
        (JSNum.fin 0) hw (Or.inr ⟨0, rfl, le_rfl⟩)
    rcases hm with h | ⟨q, hq, hq0⟩
    · exact ⟨1000, by simp [fallbackWidth, h, JSNum.falsy, JSNum.isFiniteNum], by norm_num⟩
    · rcases eq_or_lt_of_le hq0 with h0 | hpos
      · refine ⟨1000, ?_, by norm_num⟩
        rw [hq, ← h0]
        rfl
      · refine ⟨q, ?_, hpos⟩
        rw [hq]
        simp [fallbackWidth, JSNum.falsy, JSNum.isFiniteNum, hpos.ne']

/-- Witness for C5 with a one-pixel gap and two items of widths two and
three: the measured width six passes the fallback unchanged and is
positive. -/
theorem c5_width_fallback_positive_witness :
    (∀ w ∈ [(2:ℚ), 3], 0 ≤ w)
    ∧ ∃ q : ℚ, fallbackWidth (computeOriginalTotalWidth (JSNum.fin 1) [2, 3])
        = JSNum.fin q ∧ 0 < q :=
  ⟨by decide,
    (c5_width_fallback_positive (JSNum.fin 1) [2, 3]
      (Or.inr ⟨1, rfl, by norm_num⟩) (by decide)).2⟩

lemma ratMod_eq_self {x S : ℚ} (h0 : 0 ≤ x) (h1 : x < S) : ratMod x S = x := by
  have hS : 0 < S := lt_of_le_of_lt h0 h1
  have hfl : ⌊x / S⌋ = 0 := by
    rw [Int.floor_eq_zero_iff, Set.mem_Ico]
    exact ⟨div_nonneg h0 hS.le, by rwa [div_lt_one hS]⟩
  simp [ratMod, hfl]

lemma ratMod_fract (x S : ℚ) (hS : S ≠ 0) : ratMod x S = S * Int.fract (x / S) := by
  unfold ratMod Int.fract
  rw [mul_sub, mul_comm S (x / S), div_mul_cancel₀ _ hS]

lemma ratMod_nonneg {S : ℚ} (hS : 0 < S) (x : ℚ) : 0 ≤ ratMod x S := by
  rw [ratMod_fract x S hS.ne']
  exact mul_nonneg hS.le (Int.fract_nonneg _)

lemma ratMod_lt {S : ℚ} (hS : 0 < S) (x : ℚ) : ratMod x S < S := by
  rw [ratMod_fract x S hS.ne']
  calc S * Int.fract (x / S) < S * 1 := (mul_lt_mul_left hS).2 (Int.fract_lt_one _)
    _ = S := mul_one S

lemma ratMod_add_ratMod (S a b : ℚ) (hS : 0 < S) :
    ratMod (ratMod a S + b) S = ratMod (a + b) S := by
  have hS' : S ≠ 0 := hS.ne'
  have h1 : (ratMod a S + b) / S = (a + b) / S - ((⌊a / S⌋ : ℤ) : ℚ) := by
    field_simp [ratMod]
    ring
  rw [ratMod_fract _ S hS', ratMod_fract (a + b) S hS', h1, Int.fract_sub_int]

lemma carouselStep_mod {S a b : ℚ} (hS : 0 < S) (ha0 : 0 ≤ a) (haS : a < S)
    (hb0 : 0 ≤ b) (hbS : b < S) :
    (if S ≤ a + b then a + b - S else a + b) = ratMod (a + b) S := by
  by_cases h : S ≤ a + b
  · have hfloor : ⌊(a + b) / S⌋ = 1 := by
      rw [Int.floor_eq_iff]
      constructor
      · rw [Int.cast_one, le_div_iff₀ hS]
        linarith
      · rw [div_lt_iff₀ hS]
        push_cast
        linarith
    rw [if_pos h]
    unfold ratMod
    rw [hfloor]
    push_cast
    ring
  · rw [if_neg h]
    exact (ratMod_eq_self (by linarith) (by linarith)).symm

lemma carouselRun_mod (S speed : ℚ) (hS : 0 < S) (hsp : 0 ≤ speed) :
    ∀ dts : List ℚ, (∀ dt ∈ dts, 0 < dt ∧ speed * dt < S) →
      ∀ a, 0 ≤ a → a < S →
      carouselRun S speed true a dts = ratMod (a + speed * dts.sum) S := by
  intro dts
  induction dts with
  | nil =>
      intro _ a ha0 haS
      simpa [carouselRun] using (ratMod_eq_self ha0 haS).symm
  | cons dt rest ih =>
      intro h a ha0 haS
      obtain ⟨hdt, hdtS⟩ := h dt (List.mem_cons_self dt rest)
      have hb0 : 0 ≤ speed * dt := mul_nonneg hsp hdt.le
      have hstep : carouselStep S speed true a dt = ratMod (a + speed * dt) S := by
        simpa [carouselStep] using carouselStep_mod hS ha0 haS hb0 hdtS
      have h1 : carouselRun S speed true a (dt :: rest)
          = carouselRun S speed true (ratMod (a + speed * dt) S) rest := by
        unfold carouselRun
        rw [List.foldl_cons, hstep]
      rw [h1, ih (fun d hd => h d (List.mem_cons_of_mem _ hd)) _
            (ratMod_nonneg hS _) (ratMod_lt hS _),
          ratMod_add_ratMod S _ _ hS]
      congr 1
      rw [List.sum_cons]
      ring

/-- C2: starting from offset zero with the carousel running throughout,
frames whose elapsed times are positive and each advance the offset by less
than the single-set width leave the offset at speed times total elapsed
time, reduced modulo the single-set width; the single-subtraction wrap
agrees with the mathematical remainder under this precondition. -/
theorem c2_offset_is_speed_times_time_mod_width (S : ℚ) (dts : List ℚ)
    (hS : 0 < S) (hdts : ∀ dt ∈ dts, 0 < dt ∧ pxPerSecond S * dt < S) :
    carouselRun S (pxPerSecond S) true 0 dts
      = ratMod (pxPerSecond S * dts.sum) S := by
  have hsp : 0 ≤ pxPerSecond S := le_trans (by norm_num) (le_max_left 30 _)
  simpa using carouselRun_mod S (pxPerSecond S) hS hsp dts hdts 0 le_rfl hS

/-- Witness for C2 at the concrete width 100 with one frame of one second:
the speed is 30 pixels per second and the offset lands on 30. -/
theorem c2_offset_is_speed_times_time_mod_width_witness :
    ((0:ℚ) < 100 ∧ ∀ dt ∈ [(1:ℚ)], 0 < dt ∧ pxPerSecond 100 * dt < 100)
    ∧ carouselRun 100 (pxPerSecond 100) true 0 [1]
        = ratMod (pxPerSecond 100 * ([(1:ℚ)]).sum) 100 := by
  have hdts : ∀ dt ∈ [(1:ℚ)], 0 < dt ∧ pxPerSecond 100 * dt < 100 := by
    intro dt hdt
    simp only [List.mem_singleton] at hdt
    subst hdt
    norm_num [pxPerSecond, jsRound]
  exact ⟨⟨by norm_num, hdts⟩,
    c2_offset_is_speed_times_time_mod_width 100 [1] (by norm_num) hdts⟩

/-- C6: with running false, any number of frames with any elapsed times
leaves the offset exactly where it was, and a later frame with running true
advances from that frozen value just as it would have from the value at
pause time. -/
theorem c6_pause_freezes_offset (S speed px0 dt : ℚ) (pauseDts : List ℚ) :
    carouselRun S speed false px0 pauseDts = px0
    ∧ carouselStep S speed true (carouselRun S speed false px0 pauseDts) dt
        = carouselStep S speed true px0 dt := by
  have hstep : ∀ a d : ℚ, carouselStep S speed false a d = a := fun a d => rfl
  have h : ∀ (l : List ℚ) (a : ℚ), carouselRun S speed false a l = a := by
    intro l
    induction l with
    | nil => intro a; rfl
    | cons d rest ih =>
        intro a
        show (d :: rest).foldl (carouselStep S speed false) a = a
        rw [List.foldl_cons, hstep a d]
        exact ih a
  exact ⟨h pauseDts px0, by rw [h pauseDts px0]⟩

/-- C10: validation operates on the trimmed value.  Whitespace-only input
yields the required error for each of the three fields, and for nonempty
trimmed input the minimum-length errors for name and message hold exactly
when the trimmed length is below two, respectively ten. -/
theorem c10_validation_on_trimmed (s : String) :
    (jsTrim s = "" →
        validateField FieldName.name s = (false, "Name is required")
        ∧ validateField FieldName.email s = (false, "Email is required")
        ∧ validateField FieldName.message s = (false, "Message is required"))
    ∧ (jsTrim s ≠ "" →
        (validateField FieldName.name s = (false, "Name must be at least 2 characters")
            ↔ (jsTrim s).length < 2)
        ∧ (validateField FieldName.message s
              = (false, "Message must be at least 10 characters")
            ↔ (jsTrim s).length < 10)) := by
  constructor
  · intro h
    simp [validateField, h]
  · intro h
    constructor
    · by_cases h2 : (jsTrim s).length < 2
      · simp [validateField, h, h2]
      · simp [validateField, h, h2]
    · by_cases h10 : (jsTrim s).length < 10
      · simp [validateField, h, h10]
      · simp [validateField, h, h10]

/-- Witness for C10: a twelve-space message and a twelve-no-break-space
message each report the required error, not the minimum-length error, a
form-feed-only message likewise, and a name that trims to one character
reports the minimum-length error. -/
theorem c10_validation_on_trimmed_witness :
    validateField FieldName.message "            " = (false, "Message is required")
    ∧ validateField FieldName.message
        "\u00a0\u00a0\u00a0\u00a0\u00a0\u00a0\u00a0\u00a0\u00a0\u00a0\u00a0\u00a0"
        = (false, "Message is required")
    ∧ validateField FieldName.message "\u000c" = (false, "Message is required")
    ∧ (validateField FieldName.name " a "
          = (false, "Name must be at least 2 characters")
        ↔ (jsTrim " a ").length < 2) :=
  ⟨((c10_validation_on_trimmed "            ").1 (by decide)).2.2,
    ((c10_validation_on_trimmed
      "\u00a0\u00a0\u00a0\u00a0\u00a0\u00a0\u00a0\u00a0\u00a0\u00a0\u00a0\u00a0").1
      (by decide)).2.2,
    ((c10_validation_on_trimmed "\u000c").1 (by decide)).2.2,
    ((c10_validation_on_trimmed " a ").2 (by decide)).1⟩

/-- C9: toggling the theme twice returns currentTheme to its original
value, after each toggle the stored theme entry equals the new current
theme, and hence after the double toggle the stored entry holds the
restored original value. -/
theorem c9_theme_double_toggle (t : Theme) (st : Option Theme) :
    (toggleTheme (toggleTheme { current := t, storedTheme := st })).current = t
    ∧ (toggleTheme { current := t, storedTheme := st }).storedTheme
        = some (toggleTheme { current := t, storedTheme := st }).current
    ∧ (toggleTheme (toggleTheme { current := t, storedTheme := st })).storedTheme
        = some t := by
  cases t <;> simp [toggleTheme]

/-- C8: submitting the contact form with name empty, email "bad" and
message "hi" produces exactly the three field errors of the claim and does
not reset the form. -/
theorem c8_invalid_submission :
    handleFormSubmit { name := "", email := "bad", message := "hi" }
      = { nameError := "Name is required"
          emailError := "Please enter a valid email address"
          messageError := "Message must be at least 10 characters"
          formReset := false } := by
  decide

/-- C1 counterexample: the bounds invariant fails as claimed.  A particle
at the in-bounds position (0, -15, 0) with the creation-range velocity
(0, 0.01, 0), under a frame whose mouse is at the bottom of a
1000-pixel-high window, leaves the volume: the parallax term subtracts
0.15 from y, the update has no lower-bound check on y, and the particle
ends at y = -15.14. -/
theorem c1_counterexample :
    inBoundsP { x := 0, y := -15, z := 0 }
    ∧ (animateStep 0 { x := 0, y := 1/100, z := 0 }
        { time := 0, mouseX := 0, mouseY := 1000, winW := 0, winH := 1000,
          rx := 0, rz := 0 }
        { x := 0, y := -15, z := 0 }).y < -15 := by
  constructor
  · exact ⟨by norm_num, by norm_num, by norm_num, by norm_num, by norm_num, by norm_num⟩
  · simp only [animateStep]
    split
    · next h => norm_num at h
    · next h => norm_num

lemma animateRun_inBounds (i : ℕ) (v : Vec3) (es : List Env) (p : Vec3)
    (hp : inBoundsP p)
    (hpar : ∀ e ∈ es, (e.mouseY - e.winH / 2) * 0.0003 ≤ v.y) :
    inBoundsP (animateRun i v es p) := by
  induction es generalizing p with
  | nil => simpa [animateRun] using hp
  | cons e rest ih =>
      have h1 : inBoundsP (animateStep i v e p) :=
        animateStep_inBounds i v e p hp.2.2.1 (hpar e (List.mem_cons_self e rest))
      have h2 := ih (animateStep i v e p) h1
        (fun e' he' => hpar e' (List.mem_cons_of_mem _ he'))
      simpa [animateRun, List.foldl_cons] using h2

/-- C1 as amended: for any mouse positions, elapsed times and random
draws, a particle that starts with x in [-20, 20], y at most 15 and z in
[-10, 10] keeps those bounds after any number of frames (first conjunct,
unconditional); the full invariant including the y lower bound -15 is
kept provided each frame's downward mouse-parallax term does not exceed
the particle's upward velocity (second conjunct) — which holds whenever
the mouse is at or above the vertical center of the window, but not for
arbitrary mouse positions, as the counterexample shows. -/
theorem c1_amended_wraparound (i : ℕ) (v : Vec3) (es : List Env) (p : Vec3) :
    (inBoundsAboveFloor p → inBoundsAboveFloor (animateRun i v es p))
    ∧ (inBoundsP p → (∀ e ∈ es, (e.mouseY - e.winH / 2) * 0.0003 ≤ v.y) →
        inBoundsP (animateRun i v es p)) :=
  ⟨animateRun_aboveFloor i v es p, animateRun_inBounds i v es p⟩

/-- Witness for the amended C1: the zero particle with unit upward
velocity under one bottom-mouse frame keeps the unconditional bounds, and
under one centered-mouse frame keeps the full bounds. -/
theorem c1_amended_wraparound_witness :
    inBoundsP vZero
    ∧ inBoundsAboveFloor
        (animateRun 0 vUp
          [{ time := 0, mouseX := 0, mouseY := 1000, winW := 0, winH := 1000,
             rx := 0, rz := 0 }] vZero)
    ∧ inBoundsP (animateRun 0 vUp [eZero] vZero) := by
  have h1 : inBoundsP vZero := by
    refine ⟨?_, ?_, ?_, ?_, ?_, ?_⟩ <;> norm_num [vZero]
  have h0 : inBoundsAboveFloor vZero := by
    refine ⟨?_, ?_, ?_, ?_, ?_⟩ <;> norm_num [vZero]
  have h2 : ∀ e ∈ [eZero], (e.mouseY - e.winH / 2) * 0.0003 ≤ vUp.y := by
    intro e he
    simp only [List.mem_singleton] at he
    subst he
    norm_num [eZero, vUp]
  exact ⟨h1,
    (c1_amended_wraparound 0 vUp
      [{ time := 0, mouseX := 0, mouseY := 1000, winW := 0, winH := 1000,
         rx := 0, rz := 0 }] vZero).1 h0,
    (c1_amended_wraparound 0 vUp [eZero] vZero).2 h1 h2⟩

/-- C3 counterexample: the claim says the x drift phase depends on the
current y of the particle.  At flat index 0, time 0 and y = 10 the claimed
drift is sin(0.1) * 0.01, which is positive, while the code adds
sin(time + 0 * 0.01) * 0.01 = 0: the two disagree, because the code
phases the drift by the buffer index, not by the position. -/
theorem c3_counterexample :
    (animateStep 0 { x := 0, y := 1/100, z := 0 }
        { time := 0, mouseX := 0, mouseY := 0, winW := 0, winH := 0,
          rx := 0, rz := 0 }
        { x := 0, y := 10, z := 0 }).x
      ≠ (0:ℝ) + 0 + Real.sin (0 + 10 * 0.01) * 0.01 + (0 - 0 / 2) * 0.0003 := by
  have hsin : 0 < Real.sin (0 + 10 * 0.01) := by
    rw [zero_add]
    apply Real.sin_pos_of_pos_of_lt_pi
    · norm_num
    · have h3 := Real.pi_gt_three
      nlinarith
  have hL : (animateStep 0 { x := 0, y := 1/100, z := 0 }
      { time := 0, mouseX := 0, mouseY := 0, winW := 0, winH := 0,
        rx := 0, rz := 0 }
      { x := 0, y := 10, z := 0 }).x = 0 := by
    simp only [animateStep]
    split
    · next h => norm_num at h
    · next h =>
        show wrapAcross 20 _ = 0
        norm_num [wrapAcross, Real.sin_zero]
  rw [hL]
  have hR : (0:ℝ) + 0 + Real.sin (0 + 10 * 0.01) * 0.01 + (0 - 0 / 2) * 0.0003
      = Real.sin (0 + 10 * 0.01) * 0.01 := by ring
  rw [hR]
  have hpos : 0 < Real.sin (0 + 10 * 0.01) * 0.01 :=
    mul_pos hsin (by norm_num)
  exact (ne_of_gt hpos).symm

/-- C3 as amended: when no wrap or reflection triggers, the per-frame drift
added to x is sin(t + i * 0.01) * 0.01 and to z is
cos(t + i * 0.015) * 0.008, where i is the flat buffer index of the
particle (three times its ordinal) — the phase depends on the index, not
on the particle's current coordinates. -/
theorem c3_amended_drift_uses_index (i : ℕ) (v : Vec3) (e : Env) (p : Vec3)
    (hy : p.y + v.y - (e.mouseY - e.winH / 2) * 0.0003 ≤ 15)
    (hxu : p.x + v.x + Real.sin (e.time + (i : ℝ) * 0.01) * 0.01
        + (e.mouseX - e.winW / 2) * 0.0003 ≤ 20)
    (hxl : -20 ≤ p.x + v.x + Real.sin (e.time + (i : ℝ) * 0.01) * 0.01
        + (e.mouseX - e.winW / 2) * 0.0003)
    (hzu : p.z + v.z + Real.cos (e.time + (i : ℝ) * 0.015) * 0.008 ≤ 10)
    (hzl : -10 ≤ p.z + v.z + Real.cos (e.time + (i : ℝ) * 0.015) * 0.008) :
    (animateStep i v e p).x
        = p.x + v.x + Real.sin (e.time + (i : ℝ) * 0.01) * 0.01
          + (e.mouseX - e.winW / 2) * 0.0003
    ∧ (animateStep i v e p).z
        = p.z + v.z + Real.cos (e.time + (i : ℝ) * 0.015) * 0.008 := by
  simp only [animateStep]
  rw [if_neg (not_lt.mpr hy)]
  exact ⟨wrapAcross_eq_self hxu hxl, wrapAcross_eq_self hzu hzl⟩

/-- Witness for the amended C3 at the zero particle, zero velocity and the
centered-mouse frame, flat index 0. -/
theorem c3_amended_drift_uses_index_witness :
    (vZero.y + vZero.y - (eZero.mouseY - eZero.winH / 2) * 0.0003 ≤ 15)
    ∧ (animateStep 0 vZero eZero vZero).x
        = vZero.x + vZero.x + Real.sin (eZero.time + ((0:ℕ) : ℝ) * 0.01) * 0.01
          + (eZero.mouseX - eZero.winW / 2) * 0.0003
    ∧ (animateStep 0 vZero eZero vZero).z
        = vZero.z + vZero.z + Real.cos (eZero.time + ((0:ℕ) : ℝ) * 0.015) * 0.008 := by
  have hy : vZero.y + vZero.y - (eZero.mouseY - eZero.winH / 2) * 0.0003 ≤ 15 := by
    norm_num [vZero, eZero]
  have hxu : vZero.x + vZero.x + Real.sin (eZero.time + ((0:ℕ) : ℝ) * 0.01) * 0.01
      + (eZero.mouseX - eZero.winW / 2) * 0.0003 ≤ 20 := by
    norm_num [vZero, eZero, Real.sin_zero]
  have hxl : -20 ≤ vZero.x + vZero.x + Real.sin (eZero.time + ((0:ℕ) : ℝ) * 0.01) * 0.01
      + (eZero.mouseX - eZero.winW / 2) * 0.0003 := by
    norm_num [vZero, eZero, Real.sin_zero]
  have hzu : vZero.z + vZero.z + Real.cos (eZero.time + ((0:ℕ) : ℝ) * 0.015) * 0.008
      ≤ 10 := by
    norm_num [vZero, eZero, Real.cos_zero]
  have hzl : -10 ≤ vZero.z + vZero.z
      + Real.cos (eZero.time + ((0:ℕ) : ℝ) * 0.015) * 0.008 := by
    norm_num [vZero, eZero, Real.cos_zero]
  obtain ⟨h1, h2⟩ := c3_amended_drift_uses_index 0 vZero eZero vZero hy hxu hxl hzu hzl
  exact ⟨hy, h1, h2⟩

/-- C7: the per-frame update leaves the velocity, size and color buffers
exactly equal to their creation-time values after any number of frames;
only the position buffer (and the shader time uniform) changes. -/
theorem c7_only_positions_mutate (es : List FieldEnv) (s : ParticleSystem) :
    (animateFrames es s).velocities = s.velocities
    ∧ (animateFrames es s).sizes = s.sizes
    ∧ (animateFrames es s).colors = s.colors := by
  induction es generalizing s with
  | nil => exact ⟨rfl, rfl, rfl⟩
  | cons e rest ih =>
      obtain ⟨h1, h2, h3⟩ := ih (animateParticles e s)
      exact ⟨h1.trans rfl, h2.trans rfl, h3.trans rfl⟩

end Portfolio
